import Mathlib

/-!
Verification of the BlameEngine core (blame-engine/backend): the lap-time
delta predictor, the counterfactual race simulator, the strategy-error
estimator, the independent cost estimators and the blame aggregator, as a
shallow embedding over ℚ (Python floats are modelled as exact rationals,
Python ints as ℤ).
-/

namespace BlameEngine

/-! ## Rounding

Python's builtin `round(x, 3)` rounds half to even.  It is modelled on ℚ:
`pyRound` is round-half-even to an integer, `round3` is `round(x, 3)`. -/

/-- Round-half-even of a rational to an integer, the model of Python `round`. -/
def pyRound (x : ℚ) : ℤ :=
  if Int.fract x < 1/2 then ⌊x⌋
  else if 1/2 < Int.fract x then ⌊x⌋ + 1
  else if ⌊x⌋ % 2 = 0 then ⌊x⌋ else ⌊x⌋ + 1

/-- Model of Python `round(x, 3)`. -/
def round3 (x : ℚ) : ℚ := (pyRound (1000 * x) : ℚ) / 1000

/-! ## Lap-time delta predictor (telemetry.py)

`_polynomial_lap_delta` is the fallback degradation model.  `predict_lap_delta`
dispatches on the module-level `ML_MODEL`; the repository ships no trained
model artifacts (they are produced offline by `ml_pipeline.py` and are an
external collaborator per the spec), so the shipped behaviour is the
`ML_MODEL is None` branch, which returns the polynomial fallback. -/

/-- Structural model of Python `str.upper()` (ASCII compound names only):
uppercase every character. -/
def pyUpper (s : String) : String := ⟨s.data.map Char.toUpper⟩

/-- The per-compound degradation rate: `deg_per_lap.get(compound.upper(), 0.055)`
from `_polynomial_lap_delta` (telemetry.py line 123-124). -/
def polyRate (compound : String) : ℚ :=
  if pyUpper compound = "SOFT" then 0.09
  else if pyUpper compound = "MEDIUM" then 0.055
  else if pyUpper compound = "HARD" then 0.03
  else if pyUpper compound = "INTERMEDIATE" then 0.07
  else if pyUpper compound = "WET" then 0.05
  else 0.055

/-- `_polynomial_lap_delta(tyre_age, compound, fuel_load)` (telemetry.py 121-126). -/
def polynomialLapDelta (tyre_age : ℚ) (compound : String) (fuel_load : ℚ) : ℚ :=
  tyre_age * polyRate compound + (1 - fuel_load) * 0.08

/-- `predict_lap_delta` (telemetry.py 66-118) in the shipped configuration:
`ML_MODEL is None`, so the call reduces to `_polynomial_lap_delta(tyre_age,
compound, fuel_load)` (lines 85-87).  The trained-model branch is backed by
external artifacts; theorems that hold for any predictor are stated over an
arbitrary function of the same signature. -/
def predictLapDelta (tyre_age : ℚ) (compound : String) (fuel_load : ℚ)
    (_lap_number _track_temp _driver_rank : ℚ) (_circuit : String) (_season : ℤ) : ℚ :=
  polynomialLapDelta tyre_age compound fuel_load

/-- The type of a lap-time predictor, the argument list of `predict_lap_delta`:
tyre age, compound, fuel load, lap number, track temperature, driver rank,
circuit, season. -/
def Pred : Type :=
  ℚ → String → ℚ → ℚ → ℚ → ℚ → String → ℤ → ℚ

/-! ## Feature encoding of `tyre_life_pct`

Two implementations exist in the repository: the serving-time encoding inside
`predict_lap_delta` (telemetry.py 95-99, no clamp) and the training-time
encoding in `ml_pipeline.extract_lap_features` (ml_pipeline.py 115-118,
clipped to [0, 1.5] by pandas `.clip(0, 1.5)`). -/

/-- `max_age_map.get(comp_upper, 35)` (telemetry.py 95) and
`max_age.get(compound, 35)` (ml_pipeline.py 115-117). -/
def maxAgeFor (c : String) : ℚ :=
  if c = "SOFT" then 25
  else if c = "MEDIUM" then 35
  else if c = "HARD" then 50
  else if c = "INTERMEDIATE" then 30
  else if c = "WET" then 40
  else 35

/-- Serving-time `tyre_life_pct = tyre_age / max_age_map.get(comp_upper, 35)`
(telemetry.py 97-99): no clamp is applied. -/
def servingTyreLifePct (tyre_age : ℚ) (compound : String) : ℚ :=
  tyre_age / maxAgeFor (pyUpper compound)

/-- Training-time `tyre_life_pct` (ml_pipeline.py 115-118): the compound column
is uppercased upstream (line 80), the ratio is clipped to [0, 1.5]. -/
def trainingTyreLifePct (tyre_age : ℚ) (compound : String) : ℚ :=
  min (max (tyre_age / maxAgeFor (pyUpper compound)) 0) 1.5

/-! ## Lap records

One row of the FastF1 laps dataframe, restricted to the columns the core
reads.  Timestamps and lap times are rational seconds; missing values
(`NaT`/`NaN`) are `none`. -/

structure Lap where
  driver : String
  lapNumber : ℤ
  lapTime : Option ℚ
  compound : String
  tyreLife : ℤ
  stint : ℤ
  pitInTime : Option ℚ
  pitOutTime : Option ℚ
  trackStatus : String
  position : ℤ
deriving DecidableEq, Repr

/-- `driver_laps[driver_laps["PitOutTime"].notna()]["LapNumber"].tolist()[0]`:
the lap number of the first row carrying a pit-out timestamp, `none` when the
driver never pitted (telemetry.py 158-163, 285-289). -/
def firstPitLap (dl : List Lap) : Option ℤ :=
  ((dl.filter (fun l => l.pitOutTime.isSome)).map (fun l => l.lapNumber)).head?

/-- `int(driver_laps["LapNumber"].max())` (telemetry.py 157, 290); the callers
only use it on a nonempty lap list. -/
def maxLapNumber (dl : List Lap) : ℤ :=
  ((dl.map (fun l => l.lapNumber)).max?).getD 0

/-- Starting compound: the compound of the row with `LapNumber == 1`,
uppercased, defaulting to `"MEDIUM"` (telemetry.py 168-174). -/
def startingCompound (dl : List Lap) : String :=
  (((dl.filter (fun l => l.lapNumber == 1)).head?).map
    (fun l => pyUpper l.compound)).getD "MEDIUM"

/-- `_get_next_compound(driver_laps, pit_lap)` (telemetry.py 254-262): the
compound of the first row with `LapNumber > pit_lap`, uppercased, defaulting
to `"HARD"`. -/
def getNextCompound (dl : List Lap) (pit_lap : ℤ) : String :=
  (((dl.filter (fun l => decide (pit_lap < l.lapNumber))).head?).map
    (fun l => pyUpper l.compound)).getD "HARD"

/-- `_get_circuit_median(circuit)` (telemetry.py 243-251): with no trained
model metadata loaded (`ML_META is None`, the shipped configuration) it
always returns the 90.0 s fallback. -/
def getCircuitMedian (_circuit : String) : ℚ := 90

/-! ## Counterfactual race simulator (`simulate_strategy`, telemetry.py 131-240) -/

/-- The running state of one simulated timeline: accumulated race time,
current tyre age and current compound. -/
structure SimState where
  time : ℚ
  tyreAge : ℤ
  compound : String
deriving DecidableEq, Repr

/-- One iteration of the `for lap in range(1, total_laps + 1)` loop
(telemetry.py 176-195 and 206-224): predict the lap delta from the current
state, add `circuit_median + delta`, age the tyre, and on the pit lap under
test reset tyre age to 0 and switch to the post-pit compound. -/
def simStep (pred : Pred) (circuit : String) (season : ℤ) (track_temp : ℚ)
    (T pit_lap : ℤ) (nextC : String) (st : SimState) (lap : ℤ) : SimState :=
  let fuel : ℚ := 1 - ((lap : ℚ) / (T : ℚ)) * 0.95
  let delta := pred (st.tyreAge : ℚ) st.compound fuel (lap : ℚ) track_temp 10 circuit season
  let time := st.time + getCircuitMedian circuit + delta
  if lap = pit_lap then ⟨time, 0, nextC⟩
  else ⟨time, st.tyreAge + 1, st.compound⟩

/-- The laps `1, 2, ..., T` of one timeline. -/
def lapRange (T : ℤ) : List ℤ := (List.range T.toNat).map (fun i : ℕ => (i : ℤ) + 1)

/-- Total simulated race time of one timeline with the pit stop placed at
`pit_lap`: the loop of telemetry.py 176-195 (actual) and 206-224
(counterfactual), starting from fresh tyres on the starting compound. -/
def runTimeline (pred : Pred) (circuit : String) (season : ℤ) (track_temp : ℚ)
    (T pit_lap : ℤ) (startC nextC : String) : ℚ :=
  ((lapRange T).foldl (simStep pred circuit season track_temp T pit_lap nextC)
    ⟨0, 0, startC⟩).time

/-- The result dictionary built at telemetry.py 230-237. -/
structure CounterfactualResult where
  actual_pit_lap : ℤ
  alt_pit_lap : ℤ
  actual_total_s : ℚ
  counter_total_s : ℚ
  delta_s : ℚ
  method : String
deriving DecidableEq, Repr

/-- The three possible returns of `simulate_strategy`: the early zero-delta
dictionaries `{"delta": 0.0, "method": "no_data"}` (line 155) and
`{"delta": 0.0, "method": "no_pit_found"}` (line 161), or the full
counterfactual result (lines 230-237). -/
inductive SimOutcome where
  | noData
  | noPit
  | ok (r : CounterfactualResult)
deriving DecidableEq, Repr

/-- The `"method"` entry of the returned dictionary. -/
def SimOutcome.method : SimOutcome → String
  | .noData => "no_data"
  | .noPit => "no_pit_found"
  | .ok r => r.method

/-- `result.get("delta_s", 0.0)` (telemetry.py 307): the `delta_s` entry when
present, 0.0 otherwise (the zero-delta dictionaries carry only `"delta"`). -/
def SimOutcome.getDeltaS : SimOutcome → ℚ
  | .noData => 0
  | .noPit => 0
  | .ok r => r.delta_s

/-- The `"delta"` entry: 0.0 in both zero-delta dictionaries; the full result
reports its delta under `"delta_s"` instead. -/
def SimOutcome.zeroDelta : SimOutcome → ℚ
  | _ => 0

/-- `simulate_strategy(race_laps, driver, alt_pit_lap, circuit, season,
track_temp)` (telemetry.py 131-240), shipped configuration (`ML_MODEL is
None`, hence the `"polynomial_counterfactual"` method tag), parameterised by
the lap-time predictor. -/
def simulateStrategy (pred : Pred) (race_laps : List Lap) (driver : String)
    (alt_pit_lap : ℤ) (circuit : String) (season : ℤ) (track_temp : ℚ) : SimOutcome :=
  let dl := race_laps.filter (fun l => l.driver == driver)
  if dl.isEmpty then .noData
  else
    match firstPitLap dl with
    | none => .noPit
    | some actual_pit =>
      let T := maxLapNumber dl
      let startC := startingCompound dl
      let nextC := getNextCompound dl actual_pit
      let actual_time := runTimeline pred circuit season track_temp T actual_pit startC nextC
      let counter_time := runTimeline pred circuit season track_temp T alt_pit_lap startC nextC
      .ok
        { actual_pit_lap := actual_pit
          alt_pit_lap := alt_pit_lap
          actual_total_s := round3 actual_time
          counter_total_s := round3 counter_time
          delta_s := round3 (actual_time - counter_time)
          method := "polynomial_counterfactual" }

/-! ## Strategy-error estimator (`compute_strategy_error_ml`, telemetry.py 267-314) -/

/-- The six alternative pit-lap candidates (telemetry.py 293-300): the minus
candidates are floored at 3, the plus candidates are capped at
`total_laps - 5`; no candidate receives both bounds. -/
def alternatives (actual_pit T : ℤ) : List ℤ :=
  [max 3 (actual_pit - 9), max 3 (actual_pit - 6), max 3 (actual_pit - 3),
   min (T - 5) (actual_pit + 3), min (T - 5) (actual_pit + 6), min (T - 5) (actual_pit + 9)]

/-- The `best_delta` accumulation loop of telemetry.py 302-309: starting from
0, replace the running best on a strictly larger counterfactual delta. -/
def bestDeltaOver (pred : Pred) (race_laps : List Lap) (driver circuit : String)
    (season : ℤ) (track_temp : ℚ) (alts : List ℤ) : ℚ :=
  alts.foldl
    (fun best alt =>
      let d := (simulateStrategy pred race_laps driver alt circuit season track_temp).getDeltaS
      if best < d then d else best) 0

/-- `compute_strategy_error_ml(driver_laps, race_laps, driver, circuit,
season, track_temp)` (telemetry.py 267-314): 0.0 with no pit stop, otherwise
the negated, rounded best positive counterfactual delta over the six
candidates. -/
def computeStrategyErrorML (pred : Pred) (driver_laps race_laps : List Lap)
    (driver circuit : String) (season : ℤ) (track_temp : ℚ) : ℚ :=
  match firstPitLap driver_laps with
  | none => 0
  | some actual_pit =>
    -(round3 (bestDeltaOver pred race_laps driver circuit season track_temp
      (alternatives actual_pit (maxLapNumber driver_laps))))

/-- Modelled from the spec for comparison with the source: claim C4 reads the
candidates as "each candidate clamped to the interval [3, totalLaps - 5]",
i.e. a two-sided clamp applied to all six offsets. -/
def specClampedAlternatives (actual_pit T : ℤ) : List ℤ :=
  [max 3 (min (T - 5) (actual_pit - 9)), max 3 (min (T - 5) (actual_pit - 6)),
   max 3 (min (T - 5) (actual_pit - 3)), max 3 (min (T - 5) (actual_pit + 3)),
   max 3 (min (T - 5) (actual_pit + 6)), max 3 (min (T - 5) (actual_pit + 9))]

/-- Modelled from the spec for comparison with the source: the strategy-error
estimator exactly as `computeStrategyErrorML` but enumerating the two-sidedly
clamped candidates of claim C4. -/
def specStrategyError (pred : Pred) (driver_laps race_laps : List Lap)
    (driver circuit : String) (season : ℤ) (track_temp : ℚ) : ℚ :=
  match firstPitLap driver_laps with
  | none => 0
  | some actual_pit =>
    -(round3 (bestDeltaOver pred race_laps driver circuit season track_temp
      (specClampedAlternatives actual_pit (maxLapNumber driver_laps))))

/-! ## Tyre-degradation cost (`compute_tyre_degradation_cost_ml`, telemetry.py 331-383) -/

/-- First-appearance-order deduplication, the model of pandas
`Series.unique()` used on the `Stint` column (telemetry.py 347). -/
def uniqueAux : List ℤ → List ℤ → List ℤ
  | _, [] => []
  | seen, x :: xs => if x ∈ seen then uniqueAux seen xs else x :: uniqueAux (x :: seen) xs

/-- `driver_laps["Stint"].unique()`. -/
def stintIds (dl : List Lap) : List ℤ := uniqueAux [] (dl.map (fun l => l.stint))

/-- The per-lap contribution to the degradation cost (telemetry.py 356-379):
excess of the actual lap time over the predicted optimal time, counted (with
the 0.6 discount) only when it exceeds the 0.3 s noise threshold. -/
def degLapCost (pred : Pred) (circuit : String) (season : ℤ) (track_temp : ℚ)
    (T : ℤ) (compound : String) (lap : Lap) : ℚ :=
  match lap.lapTime with
  | none => 0
  | some actual_t =>
    let fuel : ℚ := 1 - ((lap.lapNumber : ℚ) / (T : ℚ)) * 0.95
    let predicted_t := getCircuitMedian circuit +
      pred (lap.tyreLife : ℚ) compound fuel (lap.lapNumber : ℚ) track_temp 5 circuit season
    let excess := actual_t - predicted_t
    if 0.3 < excess then excess * 0.6 else 0

/-- The timed laps of one stint: `stint[stint["LapTime"].notna()]`. -/
def stintTimedLaps (dl : List Lap) (sid : ℤ) : List Lap :=
  (dl.filter (fun l => l.stint == sid)).filter (fun l => l.lapTime.isSome)

/-- The accumulated `cost` of the stint loop (telemetry.py 346-379): per
stint of at least 3 timed laps, the sum of the thresholded, discounted
per-lap excesses. -/
def degCostSum (pred : Pred) (driver_laps : List Lap)
    (circuit : String) (season : ℤ) (track_temp : ℚ) : ℚ :=
  ((stintIds driver_laps).map (fun sid =>
      let stint := stintTimedLaps driver_laps sid
      if stint.length < 3 then 0
      else
        let compound := ((stint.head?).map (fun l => pyUpper l.compound)).getD "MEDIUM"
        (stint.map (degLapCost pred circuit season track_temp
          (maxLapNumber driver_laps) compound)).sum)).sum

/-- `compute_tyre_degradation_cost_ml(driver_laps, circuit, season,
track_temp)` (telemetry.py 331-383): stints with fewer than 3 timed laps are
skipped, the accumulated cost is capped at 8.0 s and returned negated. -/
def computeTyreDegradationCostML (pred : Pred) (driver_laps : List Lap)
    (circuit : String) (season : ℤ) (track_temp : ℚ) : ℚ :=
  -(round3 (min (degCostSum pred driver_laps circuit season track_temp) 8))

/-- The per-lap excess of actual over predicted lap time, shared by the two
spec-side variants below. -/
def degLapExcess (pred : Pred) (circuit : String) (season : ℤ) (track_temp : ℚ)
    (T : ℤ) (compound : String) (lap : Lap) : ℚ :=
  match lap.lapTime with
  | none => 0
  | some actual_t =>
    let fuel : ℚ := 1 - ((lap.lapNumber : ℚ) / (T : ℚ)) * 0.95
    let predicted_t := getCircuitMedian circuit +
      pred (lap.tyreLife : ℚ) compound fuel (lap.lapNumber : ℚ) track_temp 5 circuit season
    actual_t - predicted_t

/-- Modelled from the spec for comparison with the source: claim C8 sums
`max(0, actual - predicted) * 0.6` over every lap of every stint of at least
3 timed laps (no 0.3 s threshold), capped at 8.0 s and negated. -/
def specTyreDegCostSum (pred : Pred) (driver_laps : List Lap)
    (circuit : String) (season : ℤ) (track_temp : ℚ) : ℚ :=
  ((stintIds driver_laps).map (fun sid =>
      let stint := stintTimedLaps driver_laps sid
      if stint.length < 3 then 0
      else
        let compound := ((stint.head?).map (fun l => pyUpper l.compound)).getD "MEDIUM"
        (stint.map (fun lap =>
          max 0 (degLapExcess pred circuit season track_temp
            (maxLapNumber driver_laps) compound lap) * 0.6)).sum)).sum

/-- Modelled from the spec for comparison with the source: the full claim C8
estimator built on `specTyreDegCostSum`, capped at 8.0 s and negated. -/
def specTyreDegClaim (pred : Pred) (driver_laps : List Lap)
    (circuit : String) (season : ℤ) (track_temp : ℚ) : ℚ :=
  -(round3 (min (specTyreDegCostSum pred driver_laps circuit season track_temp) 8))

/-- The amended claim C8 cost formula, restructured as filter-then-sum: over
each stint of at least 3 timed laps, the laps whose excess exceeds 0.3 s
contribute `excess * 0.6`. -/
def amendedTyreDegCost (pred : Pred) (driver_laps : List Lap)
    (circuit : String) (season : ℤ) (track_temp : ℚ) : ℚ :=
  let T := maxLapNumber driver_laps
  ((stintIds driver_laps).map (fun sid =>
      let stint := stintTimedLaps driver_laps sid
      if stint.length < 3 then 0
      else
        let compound := ((stint.head?).map (fun l => pyUpper l.compound)).getD "MEDIUM"
        (((stint.map (degLapExcess pred circuit season track_temp T compound)).filter
            (fun e => decide ((0.3 : ℚ) < e))).map (fun e => e * 0.6)).sum)).sum

/-! ## Optimal position (`compute_optimal_position`, telemetry.py 448-464;
the identical inline block of `compute_blame`, main.py 90-108) -/

/-- `compute_optimal_position(actual_pos, total_loss_seconds,
car_pace_deficit, ...)`: Python `int()` truncates towards zero, which on the
non-negative quantities `recoverable / 2.5` and `|car_pace| / 0.4` is the
floor. -/
def computeOptimalPosition (actual_pos : ℤ) (total_loss car_pace : ℚ) : ℤ :=
  let recoverable : ℚ := max 0 (total_loss - |car_pace|)
  let positions_recover : ℤ := ⌊recoverable / 2.5⌋
  let car_floor : ℤ := max 1 (⌊|car_pace| / 0.4⌋ + 1)
  let raw_optimal := actual_pos - positions_recover
  max 1 (min (max raw_optimal car_floor) actual_pos)

/-- `positions_lost = actual_pos - optimal_pos` (telemetry.py 543,
main.py 108). -/
def positionsLost (actual_pos : ℤ) (total_loss car_pace : ℚ) : ℤ :=
  actual_pos - computeOptimalPosition actual_pos total_loss car_pace

/-! ## Blame aggregation (`full_autopsy`, telemetry.py 528-543;
`compute_blame`, main.py 79-111) -/

/-- The six signed cost terms, in the insertion order of the `blame`
dictionary (telemetry.py 530-537, main.py 81-88). -/
structure Blame where
  qualifying_cost : ℚ
  tyre_degradation : ℚ
  pit_execution : ℚ
  strategy_error : ℚ
  car_pace_deficit : ℚ
  incident_impact : ℚ
deriving DecidableEq, Repr

/-- The `blame` dictionary as an ordered key-value list. -/
def blamePairs (b : Blame) : List (String × ℚ) :=
  [("qualifying_cost", b.qualifying_cost), ("tyre_degradation", b.tyre_degradation),
   ("pit_execution", b.pit_execution), ("strategy_error", b.strategy_error),
   ("car_pace_deficit", b.car_pace_deficit), ("incident_impact", b.incident_impact)]

/-- `total_loss = abs(qualifying + tyre_deg + pit_exec + strategy + car_pace
+ incident)` (telemetry.py 528, main.py 79). -/
def totalLoss (b : Blame) : ℚ :=
  |b.qualifying_cost + b.tyre_degradation + b.pit_execution + b.strategy_error +
    b.car_pace_deficit + b.incident_impact|

/-- The accumulation of Python `min(iterable, key=f)`: the running best is
replaced only on a strictly smaller key, so the first minimiser in iteration
order wins. -/
def minPairAux : (String × ℚ) → List (String × ℚ) → (String × ℚ)
  | best, [] => best
  | best, p :: rest => minPairAux (if p.2 < best.2 then p else best) rest

/-- `primary_cause = min(blame, key=blame.get)` (telemetry.py 539,
main.py 110): the first key of the dictionary holding the minimum value. -/
def primaryCause (b : Blame) : String :=
  (minPairAux ("qualifying_cost", b.qualifying_cost) (blamePairs b).tail).1

/-- The running minimum of the values seen so far. -/
def minVal : ℚ → List (String × ℚ) → ℚ
  | m, [] => m
  | m, p :: rest => minVal (min m p.2) rest

/-- The minimum value of the blame dictionary. -/
def blameMinValue (b : Blame) : ℚ :=
  minVal b.qualifying_cost (blamePairs b).tail

/-! ## Masking later pit stops (for claim C10) -/

/-- A lap record with its pit-out timestamp removed. -/
def scrubPit (l : Lap) : Lap := { l with pitOutTime := none }

/-- Remove the pit-out timestamp of every pit row after the first one; the
flag records whether a pit row has already been seen. -/
def maskLaterPits : Bool → List Lap → List Lap
  | _, [] => []
  | seen, l :: ls =>
    if l.pitOutTime.isSome then
      (if seen then scrubPit l else l) :: maskLaterPits true ls
    else l :: maskLaterPits seen ls

/-- A lap log with every pit stop after the first erased. -/
def ignoreLaterPits (laps : List Lap) : List Lap := maskLaterPits false laps

/-! ## Closed form of one simulated timeline

`stintAge`/`stintCompound` give the tyre age and compound fed to the
predictor on lap `i + 1` of a timeline whose single pit stop is placed at
`p`: the reset has happened exactly when `1 ≤ p ≤ i`. -/

/-- Tyre age at prediction time on lap `i + 1` of a timeline pitting at `p`. -/
def stintAge (p : ℤ) (i : ℕ) : ℤ :=
  if 1 ≤ p ∧ p ≤ (i : ℤ) then (i : ℤ) - p else (i : ℤ)

/-- Compound at prediction time on lap `i + 1` of a timeline pitting at `p`. -/
def stintCompound (p : ℤ) (startC nextC : String) (i : ℕ) : String :=
  if 1 ≤ p ∧ p ≤ (i : ℤ) then nextC else startC

/-- The simulated time of lap `i + 1` in closed form. -/
def lapContrib (pred : Pred) (circuit : String) (season : ℤ) (track_temp : ℚ)
    (T p : ℤ) (startC nextC : String) (i : ℕ) : ℚ :=
  getCircuitMedian circuit +
    pred ((stintAge p i : ℤ) : ℚ) (stintCompound p startC nextC i)
      (1 - (((i : ℚ) + 1) / (T : ℚ)) * 0.95) ((i : ℚ) + 1) track_temp 10 circuit season

/-! ## Concrete lap logs used as test fixtures -/

/-- A lap row of driver `"VER"` with the fields the core reads. -/
def mkLap (n : ℤ) (comp : String) (pit : Option ℚ) (lt : Option ℚ) (tl st : ℤ) : Lap :=
  { driver := "VER", lapNumber := n, lapTime := lt, compound := comp,
    tyreLife := tl, stint := st, pitInTime := none, pitOutTime := pit,
    trackStatus := "1", position := 1 }

/-- A 6-lap race in which the driver pits at the end of lap 5, starting on
SOFT and switching to HARD. -/
def pitLateLaps : List Lap :=
  [mkLap 1 "SOFT" none none 1 1, mkLap 2 "SOFT" none none 2 1,
   mkLap 3 "SOFT" none none 3 1, mkLap 4 "SOFT" none none 4 1,
   mkLap 5 "SOFT" (some 0) none 5 1, mkLap 6 "HARD" none none 1 2]

/-- A 3-lap single-stint log whose every lap is exactly 0.2 s slower than the
polynomial prediction (below the 0.3 s threshold of the degradation cost). -/
def smallExcessLaps : List Lap :=
  [mkLap 1 "SOFT" none (some (90 + 1 * (9/100) + 1 * (76/1000) / 3 + 2/10)) 1 1,
   mkLap 2 "SOFT" none (some (90 + 2 * (9/100) + 2 * (76/1000) / 3 + 2/10)) 2 1,
   mkLap 3 "SOFT" none (some (90 + 3 * (9/100) + 3 * (76/1000) / 3 + 2/10)) 3 1]

/-- A 4-lap log with no pit stop at all. -/
def noPitLaps : List Lap :=
  [mkLap 1 "SOFT" none none 1 1, mkLap 2 "SOFT" none none 2 1,
   mkLap 3 "SOFT" none none 3 1, mkLap 4 "SOFT" none none 4 1]

/-- A 6-lap race with two recorded pit stops (laps 2 and 4). -/
def twoPitLaps : List Lap :=
  [mkLap 1 "SOFT" none none 1 1, mkLap 2 "SOFT" (some 10) none 2 1,
   mkLap 3 "MEDIUM" none none 1 2, mkLap 4 "MEDIUM" (some 20) none 2 2,
   mkLap 5 "HARD" none none 1 3, mkLap 6 "HARD" none none 2 3]

/-- The six blame terms of the spec scenario:
{-1.0, -2.0, -0.5, -3.0, -1.5, -0.0}. -/
def scenarioBlame : Blame :=
  { qualifying_cost := -1, tyre_degradation := -2, pit_execution := -0.5,
    strategy_error := -3, car_pace_deficit := -1.5, incident_impact := 0 }

/-! ## Rounding and rate lemmas -/

theorem pyRound_intCast (n : ℤ) : pyRound (n : ℚ) = n := by
  unfold pyRound
  rw [Int.fract_intCast]
  norm_num

theorem floor_le_pyRound (x : ℚ) : ⌊x⌋ ≤ pyRound x := by
  unfold pyRound
  split_ifs <;> omega

theorem pyRound_le_ceil (x : ℚ) : pyRound x ≤ ⌈x⌉ := by
  unfold pyRound
  have hlf : ⌊x⌋ ≤ ⌈x⌉ := Int.floor_le_ceil x
  have key : ¬ Int.fract x < 1/2 → ⌊x⌋ + 1 ≤ ⌈x⌉ := by
    intro h
    have hfr : (⌊x⌋ : ℚ) + Int.fract x = x := Int.floor_add_fract x
    have hpos : 0 < Int.fract x := lt_of_lt_of_le (by norm_num) (not_lt.mp h)
    have hx : (⌊x⌋ : ℚ) < x := by linarith
    have : ⌊x⌋ < ⌈x⌉ := Int.lt_ceil.mpr hx
    omega
  split_ifs with h1 h2 h3
  · exact hlf
  · exact key h1
  · exact hlf
  · exact key h1

/-- `round3` is exact on rationals that are integer multiples of `1/1000`. -/
theorem round3_exact (x : ℚ) (k : ℤ) (h : 1000 * x = k) : round3 x = x := by
  unfold round3
  rw [h, pyRound_intCast, ← h]
  ring

theorem round3_nonneg (x : ℚ) (h : 0 ≤ x) : 0 ≤ round3 x := by
  unfold round3
  have h0 : (0 : ℤ) ≤ ⌊(1000 : ℚ) * x⌋ := by positivity
  have := floor_le_pyRound (1000 * x)
  have : (0 : ℤ) ≤ pyRound (1000 * x) := le_trans h0 this
  positivity

theorem round3_le_of_le (x B : ℚ) (kB : ℤ) (hB : 1000 * B = kB) (h : x ≤ B) :
    round3 x ≤ B := by
  unfold round3
  have hc : pyRound (1000 * x) ≤ ⌈(1000 : ℚ) * x⌉ := pyRound_le_ceil _
  have hxB : (1000 : ℚ) * x ≤ (kB : ℚ) := by rw [← hB]; linarith
  have hceil : ⌈(1000 : ℚ) * x⌉ ≤ kB := Int.ceil_le.mpr hxB
  have hle : pyRound (1000 * x) ≤ kB := le_trans hc hceil
  have hq : (pyRound (1000 * x) : ℚ) ≤ (kB : ℚ) := by exact_mod_cast hle
  have hB' : B = (kB : ℚ) / 1000 := by rw [← hB]; ring
  rw [hB']
  linarith

theorem polyRate_cases (c : String) :
    polyRate c = 0.09 ∨ polyRate c = 0.055 ∨ polyRate c = 0.03 ∨
      polyRate c = 0.07 ∨ polyRate c = 0.05 := by
  unfold polyRate
  split_ifs <;> simp

/-- Every compound rate is an integer multiple of 1/200. -/
theorem polyRate_mul_200 (c : String) : ∃ k : ℤ, polyRate c * 200 = k := by
  rcases polyRate_cases c with h | h | h | h | h <;> rw [h]
  · exact ⟨18, by norm_num⟩
  · exact ⟨11, by norm_num⟩
  · exact ⟨6, by norm_num⟩
  · exact ⟨14, by norm_num⟩
  · exact ⟨10, by norm_num⟩

/-! ## Helper lemmas about the running-minimum fold -/

theorem minVal_le_init (m : ℚ) (l : List (String × ℚ)) : minVal m l ≤ m := by
  induction l generalizing m with
  | nil => exact le_refl m
  | cons p rest ih =>
    calc minVal m (p :: rest) = minVal (min m p.2) rest := rfl
    _ ≤ min m p.2 := ih _
    _ ≤ m := min_le_left _ _

theorem minVal_le_mem (m : ℚ) (l : List (String × ℚ)) (q : String × ℚ) (hq : q ∈ l) :
    minVal m l ≤ q.2 := by
  induction l generalizing m with
  | nil => cases hq
  | cons p rest ih =>
    rcases List.mem_cons.mp hq with h | h
    · calc minVal m (p :: rest) = minVal (min m p.2) rest := rfl
      _ ≤ min m p.2 := minVal_le_init _ _
      _ ≤ p.2 := min_le_right _ _
      _ = q.2 := by rw [h]
    · exact ih _ h

theorem minPairAux_find (l : List (String × ℚ)) (best : String × ℚ) :
    (best :: l).find? (fun p => decide (p.2 = minVal best.2 l)) =
      some (minPairAux best l) := by
  induction l generalizing best with
  | nil =>
    simp [minVal, minPairAux, List.find?]
  | cons p rest ih =>
    have hstep : minPairAux best (p :: rest) =
        minPairAux (if p.2 < best.2 then p else best) rest := rfl
    have hmin : minVal best.2 (p :: rest) =
        minVal (if p.2 < best.2 then p else best).2 rest := by
      by_cases hc : p.2 < best.2
      · simp only [minVal, hc, if_pos]
        have : min best.2 p.2 = p.2 := min_eq_right (le_of_lt hc)
        rw [this]
      · simp only [minVal, hc, if_neg, not_false_iff]
        have : min best.2 p.2 = best.2 := min_eq_left (not_lt.mp hc)
        rw [this]
    rw [hstep, hmin]
    set best' := if p.2 < best.2 then p else best with hbest'
    have hm_le : minVal best'.2 rest ≤ best'.2 := minVal_le_init _ _
    by_cases hc : p.2 < best.2
    · have hb' : best' = p := by rw [hbest', if_pos hc]
      have hne : best.2 ≠ minVal best'.2 rest := by
        rw [hb'] at hm_le ⊢
        exact ne_of_gt (lt_of_le_of_lt hm_le hc)
      rw [List.find?_cons_of_neg _ (by simpa using hne)]
      rw [hb']
      exact ih p
    · have hb' : best' = best := by rw [hbest', if_neg hc]
      rw [hb'] at hm_le ⊢
      have hple : best.2 ≤ p.2 := not_lt.mp hc
      by_cases hbm : best.2 = minVal best.2 rest
      · rw [List.find?_cons_of_pos _ (by simpa using hbm)]
        have hfind := ih best
        rw [List.find?_cons_of_pos _ (by simpa using hbm)] at hfind
        exact hfind
      · have hmlt : minVal best.2 rest < best.2 :=
          lt_of_le_of_ne hm_le (fun h => hbm h.symm)
        have hpne : p.2 ≠ minVal best.2 rest :=
          ne_of_gt (lt_of_lt_of_le hmlt hple)
        rw [List.find?_cons_of_neg _ (by simpa using hbm),
          List.find?_cons_of_neg _ (by simpa using hpne)]
        have hfind := ih best
        rw [List.find?_cons_of_neg _ (by simpa using hbm)] at hfind
        exact hfind

/-! ## Claim C1 -/

/-- Claim C1: for every computed autopsy report, the reported optimal
position is at least 1 and at most the actual finishing position, and
`positions_lost = actual - optimal` is non-negative, for any actual position
`≥ 1`, any non-negative total loss and any car-pace deficit. -/
theorem claim_C1 (actual_pos : ℤ) (total_loss car_pace : ℚ)
    (hpos : 1 ≤ actual_pos) (_htl : 0 ≤ total_loss) :
    1 ≤ computeOptimalPosition actual_pos total_loss car_pace ∧
    computeOptimalPosition actual_pos total_loss car_pace ≤ actual_pos ∧
    positionsLost actual_pos total_loss car_pace =
      actual_pos - computeOptimalPosition actual_pos total_loss car_pace ∧
    0 ≤ positionsLost actual_pos total_loss car_pace := by
  have hle : computeOptimalPosition actual_pos total_loss car_pace ≤ actual_pos := by
    unfold computeOptimalPosition
    exact max_le hpos (min_le_right _ _)
  refine ⟨le_max_left _ _, hle, rfl, ?_⟩
  unfold positionsLost
  omega

/-- Witness for C1, at the spec scenario `actual_position = 10`,
`total_loss = 8.0`, `car_pace_deficit = -2.0`. -/
theorem claim_C1_witness :
    (1 : ℤ) ≤ 10 ∧ (0 : ℚ) ≤ 8 ∧
    (1 ≤ computeOptimalPosition 10 8 (-2) ∧
      computeOptimalPosition 10 8 (-2) ≤ 10 ∧
      positionsLost 10 8 (-2) = 10 - computeOptimalPosition 10 8 (-2) ∧
      0 ≤ positionsLost 10 8 (-2)) :=
  ⟨by norm_num, by norm_num, claim_C1 10 8 (-2) (by norm_num) (by norm_num)⟩

/-! ## Claim C2 -/

/-- Claim C2: the aggregator's `total_loss` equals the absolute value of the
sum of the six values stored in the blame dictionary, exactly, for any six
signed inputs. -/
theorem claim_C2 (b : Blame) :
    totalLoss b = |((blamePairs b).map Prod.snd).sum| := by
  unfold totalLoss blamePairs
  simp only [List.map_cons, List.map_nil, List.sum_cons, List.sum_nil]
  congr 1
  ring

/-! ## Claim C3 -/

/-- Claim C3: `primary_cause` is the first key of the blame dictionary (in
its fixed insertion order) holding the minimum value: `find?` for the
minimum value returns exactly the chosen key, and the minimum value is a
lower bound of all six entries.  In particular for the six terms
{-1.0, -2.0, -0.5, -3.0, -1.5, -0.0} the total loss is 8.0 and the primary
cause is `"strategy_error"`. -/
theorem claim_C3 :
    (∀ b : Blame,
      ((blamePairs b).find? (fun p => decide (p.2 = blameMinValue b))).map Prod.fst =
        some (primaryCause b)) ∧
    (∀ b : Blame, ∀ q ∈ blamePairs b, blameMinValue b ≤ q.2) ∧
    totalLoss scenarioBlame = 8 ∧ primaryCause scenarioBlame = "strategy_error" := by
  refine ⟨?_, ?_, ?_, ?_⟩
  · intro b
    have h := minPairAux_find (blamePairs b).tail ("qualifying_cost", b.qualifying_cost)
    have hlist : ("qualifying_cost", b.qualifying_cost) :: (blamePairs b).tail =
        blamePairs b := rfl
    rw [hlist] at h
    have hmv : blameMinValue b =
        minVal ("qualifying_cost", b.qualifying_cost).2 (blamePairs b).tail := rfl
    rw [hmv, h]
    rfl
  · intro b q hq
    rcases List.mem_cons.mp hq with h | h
    · have : blameMinValue b ≤ b.qualifying_cost := minVal_le_init _ _
      rw [h]
      exact this
    · exact minVal_le_mem _ _ _ h
  · norm_num [totalLoss, scenarioBlame]
  · norm_num [primaryCause, scenarioBlame, blamePairs, minPairAux]

/-! ## Claim C6 -/

/-- Claim C6 (code/training divergence): the serving-time encoding of
`tyre_life_pct` in `predict_lap_delta` is the raw ratio without any clamp —
at tyre age 100 on SOFT it is 4.0, far above the claimed 1.5 ceiling —
while the training-time encoding of the very same feature in
`ml_pipeline.extract_lap_features` is clamped to [0, 1.5] as the claim
states. -/
theorem claim_C6 :
    servingTyreLifePct 0 "SOFT" = 0 ∧
    servingTyreLifePct 100 "SOFT" = 4 ∧
    ¬ servingTyreLifePct 100 "SOFT" ≤ 1.5 ∧
    trainingTyreLifePct 100 "SOFT" = 1.5 ∧
    (∀ (age : ℚ) (c : String),
      0 ≤ trainingTyreLifePct age c ∧ trainingTyreLifePct age c ≤ 1.5) ∧
    (∀ c : String, trainingTyreLifePct 0 c = 0) := by
  have hu : pyUpper "SOFT" = "SOFT" := by decide
  refine ⟨?_, ?_, ?_, ?_, ?_, ?_⟩
  · norm_num [servingTyreLifePct, hu, maxAgeFor]
  · norm_num [servingTyreLifePct, hu, maxAgeFor]
  · norm_num [servingTyreLifePct, hu, maxAgeFor]
  · norm_num [trainingTyreLifePct, hu, maxAgeFor]
  · intro age c
    constructor
    · unfold trainingTyreLifePct
      have h0 : (0 : ℚ) ≤ max (age / maxAgeFor (pyUpper c)) 0 := le_max_right _ _
      have h15 : (0 : ℚ) ≤ 1.5 := by norm_num
      exact le_min h0 h15
    · exact min_le_right _ _
  · intro c
    unfold trainingTyreLifePct
    norm_num

/-! ## Claim C7 -/

/-- Claim C7: with no trained model the predictor returns exactly
`tyre_age * rate(compound) + (1 - fuel_load) * 0.08` for every input, where
the rates are SOFT 0.09, MEDIUM 0.055, HARD 0.03, INTERMEDIATE 0.07, WET
0.05, the compound is matched case-insensitively, and unknown compounds get
MEDIUM's rate. -/
theorem claim_C7 (tyre_age fuel_load : ℚ) (compound : String) :
    (∀ (lap tt dr : ℚ) (c : String) (s : ℤ),
      predictLapDelta tyre_age compound fuel_load lap tt dr c s =
        tyre_age * polyRate compound + (1 - fuel_load) * 0.08) ∧
    polyRate "SOFT" = 0.09 ∧ polyRate "MEDIUM" = 0.055 ∧ polyRate "HARD" = 0.03 ∧
    polyRate "INTERMEDIATE" = 0.07 ∧ polyRate "WET" = 0.05 ∧
    polyRate "sOfT" = 0.09 ∧ polyRate "wet" = 0.05 ∧
    (pyUpper compound ∉ (["SOFT", "MEDIUM", "HARD", "INTERMEDIATE", "WET"] : List String) →
      polyRate compound = 0.055) := by
  refine ⟨fun lap tt dr c s => rfl, ?_, ?_, ?_, ?_, ?_, ?_, ?_, ?_⟩
  · have h : pyUpper "SOFT" = "SOFT" := by decide
    norm_num [polyRate, h]
  · have h : pyUpper "MEDIUM" = "MEDIUM" := by decide
    have n1 : ("MEDIUM" : String) ≠ "SOFT" := by decide
    norm_num [polyRate, h, n1]
  · have h : pyUpper "HARD" = "HARD" := by decide
    have n1 : ("HARD" : String) ≠ "SOFT" := by decide
    have n2 : ("HARD" : String) ≠ "MEDIUM" := by decide
    norm_num [polyRate, h, n1, n2]
  · have h : pyUpper "INTERMEDIATE" = "INTERMEDIATE" := by decide
    have n1 : ("INTERMEDIATE" : String) ≠ "SOFT" := by decide
    have n2 : ("INTERMEDIATE" : String) ≠ "MEDIUM" := by decide
    have n3 : ("INTERMEDIATE" : String) ≠ "HARD" := by decide
    norm_num [polyRate, h, n1, n2, n3]
  · have h : pyUpper "WET" = "WET" := by decide
    have n1 : ("WET" : String) ≠ "SOFT" := by decide
    have n2 : ("WET" : String) ≠ "MEDIUM" := by decide
    have n3 : ("WET" : String) ≠ "HARD" := by decide
    have n4 : ("WET" : String) ≠ "INTERMEDIATE" := by decide
    norm_num [polyRate, h, n1, n2, n3, n4]
  · have h : pyUpper "sOfT" = "SOFT" := by decide
    norm_num [polyRate, h]
  · have h : pyUpper "wet" = "WET" := by decide
    have n1 : ("WET" : String) ≠ "SOFT" := by decide
    have n2 : ("WET" : String) ≠ "MEDIUM" := by decide
    have n3 : ("WET" : String) ≠ "HARD" := by decide
    have n4 : ("WET" : String) ≠ "INTERMEDIATE" := by decide
    norm_num [polyRate, h, n1, n2, n3, n4]
  · intro hnot
    simp only [List.mem_cons, List.not_mem_nil, or_false, not_or] at hnot
    obtain ⟨n1, n2, n3, n4, n5⟩ := hnot
    norm_num [polyRate, n1, n2, n3, n4, n5]

/-- Witness for C7, at tyre age 3, fuel load 1/2 and the unknown compound
`"PINK"`. -/
theorem claim_C7_witness :
    predictLapDelta 3 "PINK" (1/2) 7 35 10 "X" 2024 =
      3 * polyRate "PINK" + (1 - 1/2) * 0.08 ∧
    polyRate "PINK" = 0.055 :=
  ⟨(claim_C7 3 (1/2) "PINK").1 7 35 10 "X" 2024,
    (claim_C7 3 (1/2) "PINK").2.2.2.2.2.2.2.2 (by decide)⟩

/-! ## Claim C5 -/

theorem firstPitLap_eq_none (dl : List Lap) (h : ∀ l ∈ dl, l.pitOutTime = none) :
    firstPitLap dl = none := by
  unfold firstPitLap
  have hfil : dl.filter (fun l => l.pitOutTime.isSome) = [] := by
    rw [List.filter_eq_nil_iff]
    intro l hl
    rw [h l hl]
    simp
  rw [hfil]
  rfl

/-- Claim C5: for a driver whose lap log contains laps but no pit stop, the
strategy-error estimator returns exactly 0.0 and the simulator returns the
zero-delta outcome tagged `"no_pit_found"`, for any predictor. -/
theorem claim_C5 (pred : Pred) (race_laps : List Lap) (driver : String)
    (alt season : ℤ) (circuit : String) (tt : ℚ)
    (hne : race_laps.filter (fun l => l.driver == driver) ≠ [])
    (hnopit : ∀ l ∈ race_laps.filter (fun l => l.driver == driver), l.pitOutTime = none) :
    computeStrategyErrorML pred (race_laps.filter (fun l => l.driver == driver))
        race_laps driver circuit season tt = 0 ∧
    simulateStrategy pred race_laps driver alt circuit season tt = .noPit ∧
    (simulateStrategy pred race_laps driver alt circuit season tt).method =
      "no_pit_found" ∧
    (simulateStrategy pred race_laps driver alt circuit season tt).getDeltaS = 0 := by
  have hfp : firstPitLap (race_laps.filter (fun l => l.driver == driver)) = none :=
    firstPitLap_eq_none _ hnopit
  have hemp : (race_laps.filter (fun l => l.driver == driver)).isEmpty = false := by
    cases hcase : (race_laps.filter (fun l => l.driver == driver)).isEmpty
    · rfl
    · exact absurd (List.isEmpty_iff.mp hcase) hne
  have hsim : simulateStrategy pred race_laps driver alt circuit season tt = .noPit := by
    simp only [simulateStrategy, hemp, hfp]
    rfl
  have hstrat : computeStrategyErrorML pred
      (race_laps.filter (fun l => l.driver == driver)) race_laps driver circuit season tt
        = 0 := by
    unfold computeStrategyErrorML
    rw [hfp]
  exact ⟨hstrat, hsim, by rw [hsim]; rfl, by rw [hsim]; rfl⟩

/-- Witness for C5, on a 4-lap log with no pit stop. -/
theorem claim_C5_witness :
    noPitLaps.filter (fun l => l.driver == "VER") ≠ [] ∧
    (∀ l ∈ noPitLaps.filter (fun l => l.driver == "VER"), l.pitOutTime = none) ∧
    (computeStrategyErrorML predictLapDelta
        (noPitLaps.filter (fun l => l.driver == "VER"))
        noPitLaps "VER" "Monaco" 2024 35 = 0 ∧
      simulateStrategy predictLapDelta noPitLaps "VER" 3 "Monaco" 2024 35 = .noPit ∧
      (simulateStrategy predictLapDelta noPitLaps "VER" 3 "Monaco" 2024 35).method =
        "no_pit_found" ∧
      (simulateStrategy predictLapDelta noPitLaps "VER" 3 "Monaco" 2024 35).getDeltaS = 0) :=
  ⟨by decide, by decide,
    claim_C5 predictLapDelta noPitLaps "VER" 3 2024 "Monaco" 35 (by decide) (by decide)⟩

/-! ## List sum helpers -/

theorem list_sum_map_add {α : Type} (l : List α) (f g : α → ℚ) :
    (l.map (fun x => f x + g x)).sum = (l.map f).sum + (l.map g).sum := by
  induction l with
  | nil => simp
  | cons x xs ih => simp [ih]; ring

theorem list_sum_map_mul_right {α : Type} (l : List α) (f : α → ℚ) (c : ℚ) :
    (l.map (fun x => f x * c)).sum = (l.map f).sum * c := by
  induction l with
  | nil => simp
  | cons x xs ih => simp [ih]; ring

theorem gauss_range (N : ℕ) :
    ((List.range N).map (fun i : ℕ => ((i : ℚ) + 1))).sum = (N * (N + 1)) / 2 := by
  induction N with
  | zero => simp
  | succ n ih =>
    rw [List.range_succ, List.map_append, List.sum_append, ih]
    push_cast
    simp
    ring

theorem sum_mul200_int {α : Type} (l : List α) (f : α → ℚ)
    (h : ∀ x ∈ l, ∃ k : ℤ, 200 * f x = k) : ∃ k : ℤ, 200 * (l.map f).sum = k := by
  induction l with
  | nil => exact ⟨0, by simp⟩
  | cons x xs ih =>
    obtain ⟨kx, hx⟩ := h x (List.mem_cons_self x xs)
    obtain ⟨ks, hs⟩ := ih (fun y hy => h y (List.mem_cons_of_mem _ hy))
    refine ⟨kx + ks, ?_⟩
    push_cast
    rw [List.map_cons, List.sum_cons, mul_add, hx, hs]

/-! ## The closed form of one simulated timeline -/

/-- Componentwise equality of explicit simulator states. -/
theorem simState_mk_eq {t1 t2 : ℚ} {a1 a2 : ℤ} {c1 c2 : String}
    (h1 : t1 = t2) (h2 : a1 = a2) (h3 : c1 = c2) :
    (⟨t1, a1, c1⟩ : SimState) = ⟨t2, a2, c2⟩ := by rw [h1, h2, h3]

/-- One loop iteration maps the closed-form state at `n` to the closed-form
state at `n + 1`, adding the closed-form lap contribution to the total. -/
theorem simStep_closed (pred : Pred) (circuit : String) (season : ℤ) (tt : ℚ)
    (T p : ℤ) (startC nextC : String) (n : ℕ) (S : ℚ) :
    simStep pred circuit season tt T p nextC
        ⟨S, stintAge p n, stintCompound p startC nextC n⟩ ((n : ℤ) + 1) =
      ⟨S + lapContrib pred circuit season tt T p startC nextC n,
        stintAge p (n + 1), stintCompound p startC nextC (n + 1)⟩ := by
  have hcast : (((n : ℤ) + 1 : ℤ) : ℚ) = ((n : ℚ) + 1) := by push_cast; ring
  unfold simStep lapContrib stintAge stintCompound
  simp only [hcast]
  split_ifs
  all_goals try (exfalso; omega)
  all_goals apply simState_mk_eq
  all_goals try rfl
  all_goals try omega
  all_goals try ring

/-- The loop of one simulated timeline computes, after `n` laps, the running
sum of the closed-form per-lap contributions, with tyre age and compound
given by the single-changepoint closed forms `stintAge`/`stintCompound`. -/
theorem simRun_aux (pred : Pred) (circuit : String) (season : ℤ) (tt : ℚ)
    (T p : ℤ) (startC nextC : String) (n : ℕ) :
    ((List.range n).map (fun i : ℕ => (i : ℤ) + 1)).foldl
        (simStep pred circuit season tt T p nextC) ⟨0, 0, startC⟩ =
      ⟨((List.range n).map (lapContrib pred circuit season tt T p startC nextC)).sum,
        stintAge p n, stintCompound p startC nextC n⟩ := by
  induction n with
  | zero =>
    simp only [List.range_zero, List.map_nil, List.foldl_nil, List.sum_nil]
    by_cases hc : 1 ≤ p ∧ p ≤ ((0 : ℕ) : ℤ)
    · exfalso; omega
    · simp only [stintAge, stintCompound, if_neg hc]
      exact simState_mk_eq rfl (by omega) rfl
  | succ n ih =>
    rw [List.range_succ, List.map_append, List.map_append, List.foldl_append,
      List.sum_append, ih]
    simp only [List.map_cons, List.map_nil, List.foldl_cons, List.foldl_nil,
      List.sum_cons, List.sum_nil, add_zero]
    exact simStep_closed pred circuit season tt T p startC nextC n _

/-- The total simulated time of one timeline is the sum of the closed-form
per-lap contributions: the tyre age is reset and the compound changed exactly
at the pit lap under test, and nowhere else. -/
theorem runTimeline_eq_sum (pred : Pred) (circuit : String) (season : ℤ) (tt : ℚ)
    (T p : ℤ) (startC nextC : String) :
    runTimeline pred circuit season tt T p startC nextC =
      ((List.range T.toNat).map
        (lapContrib pred circuit season tt T p startC nextC)).sum := by
  unfold runTimeline lapRange
  rw [simRun_aux]

/-! ## Totals of the shipped (polynomial) simulator are multiples of 1/1000 -/

/-- With the polynomial predictor, every simulated total is an integer
multiple of 1/1000: the 90 s medians contribute integers, the tyre terms are
integer ages times rates that are multiples of 1/200, and the fuel terms sum
to `0.038 * (N + 1)` by the Gauss formula. -/
theorem runTimeline_mul1000 (circuit : String) (season : ℤ) (tt : ℚ)
    (T p : ℤ) (sC nC : String) :
    ∃ k : ℤ, 1000 * runTimeline predictLapDelta circuit season tt T p sC nC = k := by
  rw [runTimeline_eq_sum]
  rcases Nat.eq_zero_or_pos T.toNat with h0 | hpos
  · rw [h0]
    exact ⟨0, by simp⟩
  · have hTQ : (T : ℚ) = (T.toNat : ℚ) := by
      have h : ((T.toNat : ℤ)) = T := by omega
      exact_mod_cast h.symm
    have hdec : ∀ i : ℕ, lapContrib predictLapDelta circuit season tt T p sC nC i =
        (90 + ((stintAge p i : ℤ) : ℚ) * polyRate (stintCompound p sC nC i)) +
          ((i : ℚ) + 1) * (19 / 250 / (T.toNat : ℚ)) := by
      intro i
      unfold lapContrib predictLapDelta polynomialLapDelta getCircuitMedian
      rw [hTQ]
      ring
    have hmap : (List.range T.toNat).map
        (lapContrib predictLapDelta circuit season tt T p sC nC) =
        (List.range T.toNat).map (fun i : ℕ =>
          (90 + ((stintAge p i : ℤ) : ℚ) * polyRate (stintCompound p sC nC i)) +
            ((i : ℚ) + 1) * (19 / 250 / (T.toNat : ℚ))) :=
      List.map_congr_left (fun i _ => hdec i)
    rw [hmap, list_sum_map_add]
    obtain ⟨kA, hkA⟩ := sum_mul200_int (List.range T.toNat)
      (fun i : ℕ => 90 + ((stintAge p i : ℤ) : ℚ) * polyRate (stintCompound p sC nC i))
      (by
        intro i _
        obtain ⟨kr, hkr⟩ := polyRate_mul_200 (stintCompound p sC nC i)
        refine ⟨18000 + stintAge p i * kr, ?_⟩
        push_cast
        rw [← hkr]
        ring)
    have hF : ((List.range T.toNat).map (fun i : ℕ =>
        ((i : ℚ) + 1) * (19 / 250 / (T.toNat : ℚ)))).sum =
        ((T.toNat : ℚ) * ((T.toNat : ℚ) + 1) / 2) * (19 / 250 / (T.toNat : ℚ)) := by
      rw [list_sum_map_mul_right, gauss_range]
    have hNne : ((T.toNat : ℚ)) ≠ 0 := by
      have hne : T.toNat ≠ 0 := by omega
      exact_mod_cast hne
    refine ⟨5 * kA + 38 * (T.toNat + 1), ?_⟩
    rw [hF]
    have hFval : ((T.toNat : ℚ) * ((T.toNat : ℚ) + 1) / 2) * (19 / 250 / (T.toNat : ℚ)) =
        19 * ((T.toNat : ℚ) + 1) / 500 := by
      field_simp
      ring
    rw [hFval]
    have h200 : (200 : ℚ) * ((List.range T.toNat).map (fun i : ℕ =>
        90 + ((stintAge p i : ℤ) : ℚ) * polyRate (stintCompound p sC nC i))).sum = kA := hkA
    push_cast
    linarith

/-! ## Claim C9 -/

/-- Claim C9: in every full counterfactual result of the shipped simulator,
`delta_s` equals `actual_total_s - counter_total_s` exactly, and `delta_s` is
positive exactly when the actual total was the slower one. -/
theorem claim_C9 (race_laps : List Lap) (driver circuit : String)
    (alt season : ℤ) (tt : ℚ) (r : CounterfactualResult)
    (h : simulateStrategy predictLapDelta race_laps driver alt circuit season tt = .ok r) :
    r.delta_s = r.actual_total_s - r.counter_total_s ∧
    (0 < r.delta_s ↔ r.counter_total_s < r.actual_total_s) := by
  simp only [simulateStrategy] at h
  by_cases hemp : (race_laps.filter (fun l => l.driver == driver)).isEmpty = true
  · rw [if_pos hemp] at h
    simp at h
  · rw [if_neg hemp] at h
    cases hfp : firstPitLap (race_laps.filter (fun l => l.driver == driver)) with
    | none =>
      rw [hfp] at h
      simp at h
    | some p =>
      rw [hfp] at h
      obtain ⟨rap, ral, ras, rcs, rds, rm⟩ := r
      simp only [SimOutcome.ok.injEq, CounterfactualResult.mk.injEq] at h
      obtain ⟨h1, h2, h3, h4, h5, h6⟩ := h
      obtain ⟨ka, hka⟩ := runTimeline_mul1000 circuit season tt
        (maxLapNumber (race_laps.filter (fun l => l.driver == driver))) p
        (startingCompound (race_laps.filter (fun l => l.driver == driver)))
        (getNextCompound (race_laps.filter (fun l => l.driver == driver)) p)
      obtain ⟨kc, hkc⟩ := runTimeline_mul1000 circuit season tt
        (maxLapNumber (race_laps.filter (fun l => l.driver == driver))) alt
        (startingCompound (race_laps.filter (fun l => l.driver == driver)))
        (getNextCompound (race_laps.filter (fun l => l.driver == driver)) p)
      subst h3 h4 h5
      simp only
      rw [round3_exact _ ka hka, round3_exact _ kc hkc,
        round3_exact _ (ka - kc) (by push_cast; linarith)]
      exact ⟨rfl, sub_pos⟩

/-! ## Concrete evaluations on the `pitLateLaps` fixture -/

theorem polyRate_SOFT : polyRate "SOFT" = 9/100 := by
  have h : pyUpper "SOFT" = "SOFT" := by decide
  norm_num [polyRate, h]

theorem polyRate_HARD : polyRate "HARD" = 3/100 := by
  have h : pyUpper "HARD" = "HARD" := by decide
  have n1 : ("HARD" : String) ≠ "SOFT" := by decide
  have n2 : ("HARD" : String) ≠ "MEDIUM" := by decide
  norm_num [polyRate, h, n1, n2]

theorem pitLate_actual_total :
    runTimeline predictLapDelta "X" 2024 35 6 5 "SOFT" "HARD" = 270583/500 := by
  have h6 : lapRange 6 = [1, 2, 3, 4, 5, 6] := by decide
  rw [runTimeline, h6]
  norm_num [simStep, predictLapDelta, polynomialLapDelta, polyRate_SOFT, polyRate_HARD,
    getCircuitMedian, List.foldl]

theorem pitLate_alt1_total :
    runTimeline predictLapDelta "X" 2024 35 6 1 "SOFT" "HARD" = 270283/500 := by
  have h6 : lapRange 6 = [1, 2, 3, 4, 5, 6] := by decide
  rw [runTimeline, h6]
  norm_num [simStep, predictLapDelta, polynomialLapDelta, polyRate_SOFT, polyRate_HARD,
    getCircuitMedian, List.foldl]

theorem pitLate_alt3_total :
    runTimeline predictLapDelta "X" 2024 35 6 3 "SOFT" "HARD" = 270313/500 := by
  have h6 : lapRange 6 = [1, 2, 3, 4, 5, 6] := by decide
  rw [runTimeline, h6]
  norm_num [simStep, predictLapDelta, polynomialLapDelta, polyRate_SOFT, polyRate_HARD,
    getCircuitMedian, List.foldl]

theorem pitLate_sim (q : ℤ) (c : ℚ)
    (hc : runTimeline predictLapDelta "X" 2024 35 6 q "SOFT" "HARD" = c) :
    simulateStrategy predictLapDelta pitLateLaps "VER" q "X" 2024 35 =
      .ok { actual_pit_lap := 5, alt_pit_lap := q,
            actual_total_s := round3 (270583/500), counter_total_s := round3 c,
            delta_s := round3 (270583/500 - c),
            method := "polynomial_counterfactual" } := by
  have h5 : pitLateLaps.filter (fun l => l.driver == "VER") = pitLateLaps := by decide
  have h1 : firstPitLap pitLateLaps = some 5 := by decide
  have h2 : maxLapNumber pitLateLaps = 6 := by decide
  have h3 : startingCompound pitLateLaps = "SOFT" := by decide
  have h4 : getNextCompound pitLateLaps 5 = "HARD" := by decide
  simp only [simulateStrategy, h5, h1, h2, h3, h4, pitLate_actual_total, hc]
  rfl

theorem pitLate_sim3 :
    simulateStrategy predictLapDelta pitLateLaps "VER" 3 "X" 2024 35 =
      .ok { actual_pit_lap := 5, alt_pit_lap := 3,
            actual_total_s := 270583/500, counter_total_s := 270313/500,
            delta_s := 27/50, method := "polynomial_counterfactual" } := by
  have h := pitLate_sim 3 (270313/500) pitLate_alt3_total
  rw [round3_exact (270583/500 : ℚ) 541166 (by norm_num),
    round3_exact (270313/500 : ℚ) 540626 (by norm_num),
    show (270583/500 : ℚ) - 270313/500 = 27/50 by norm_num,
    round3_exact (27/50 : ℚ) 540 (by norm_num)] at h
  exact h

theorem pitLate_sim1 :
    simulateStrategy predictLapDelta pitLateLaps "VER" 1 "X" 2024 35 =
      .ok { actual_pit_lap := 5, alt_pit_lap := 1,
            actual_total_s := 270583/500, counter_total_s := 270283/500,
            delta_s := 3/5, method := "polynomial_counterfactual" } := by
  have h := pitLate_sim 1 (270283/500) pitLate_alt1_total
  rw [round3_exact (270583/500 : ℚ) 541166 (by norm_num),
    round3_exact (270283/500 : ℚ) 540566 (by norm_num),
    show (270583/500 : ℚ) - 270283/500 = 3/5 by norm_num,
    round3_exact (3/5 : ℚ) 600 (by norm_num)] at h
  exact h

theorem pitLate_code_value :
    computeStrategyErrorML predictLapDelta pitLateLaps pitLateLaps "VER" "X" 2024 35 =
      -(3/5) := by
  have hfp : firstPitLap pitLateLaps = some 5 := by decide
  have hmax : maxLapNumber pitLateLaps = 6 := by decide
  have halts : alternatives 5 6 = [3, 3, 3, 1, 1, 1] := by decide
  have hs3 : (simulateStrategy predictLapDelta pitLateLaps "VER" 3 "X" 2024 35).getDeltaS
      = 27/50 := by rw [pitLate_sim3]; rfl
  have hs1 : (simulateStrategy predictLapDelta pitLateLaps "VER" 1 "X" 2024 35).getDeltaS
      = 3/5 := by rw [pitLate_sim1]; rfl
  simp only [computeStrategyErrorML, hfp, hmax, halts]
  norm_num [bestDeltaOver, List.foldl_cons, List.foldl_nil, hs3, hs1]
  rw [round3_exact (3/5 : ℚ) 600 (by norm_num)]

theorem pitLate_spec_value :
    specStrategyError predictLapDelta pitLateLaps pitLateLaps "VER" "X" 2024 35 =
      -(27/50) := by
  have hfp : firstPitLap pitLateLaps = some 5 := by decide
  have hmax : maxLapNumber pitLateLaps = 6 := by decide
  have halts : specClampedAlternatives 5 6 = [3, 3, 3, 3, 3, 3] := by decide
  have hs3 : (simulateStrategy predictLapDelta pitLateLaps "VER" 3 "X" 2024 35).getDeltaS
      = 27/50 := by rw [pitLate_sim3]; rfl
  simp only [specStrategyError, hfp, hmax, halts]
  norm_num [bestDeltaOver, List.foldl_cons, List.foldl_nil, hs3]
  rw [round3_exact (27/50 : ℚ) 540 (by norm_num)]

/-! ## Claim C9: witness -/

/-- Witness for C9: a concrete full counterfactual result. -/
theorem claim_C9_witness :
    ({ actual_pit_lap := 5, alt_pit_lap := 3,
       actual_total_s := 270583/500, counter_total_s := 270313/500,
       delta_s := 27/50, method := "polynomial_counterfactual" } :
        CounterfactualResult).delta_s =
      ({ actual_pit_lap := 5, alt_pit_lap := 3,
         actual_total_s := 270583/500, counter_total_s := 270313/500,
         delta_s := 27/50, method := "polynomial_counterfactual" } :
          CounterfactualResult).actual_total_s -
      ({ actual_pit_lap := 5, alt_pit_lap := 3,
         actual_total_s := 270583/500, counter_total_s := 270313/500,
         delta_s := 27/50, method := "polynomial_counterfactual" } :
          CounterfactualResult).counter_total_s :=
  (claim_C9 pitLateLaps "VER" "X" 3 2024 35 _ pitLate_sim3).1

/-! ## Claim C4 -/

theorem foldl_if_max (l : List ℚ) (a : ℚ) :
    l.foldl (fun b d => if b < d then d else b) a = l.foldl max a := by
  induction l generalizing a with
  | nil => rfl
  | cons x xs ih =>
    simp only [List.foldl_cons]
    have h : (if a < x then x else a) = max a x := by
      by_cases hc : a < x
      · rw [if_pos hc, max_eq_right (le_of_lt hc)]
      · rw [if_neg hc, max_eq_left (not_lt.mp hc)]
    rw [h, ih]

theorem foldl_max_init_le (l : List ℚ) (a : ℚ) : a ≤ l.foldl max a := by
  induction l generalizing a with
  | nil => exact le_refl a
  | cons x xs ih => exact le_trans (le_max_left a x) (ih (max a x))

theorem foldl_max_of_nonpos (l : List ℚ) (h : ∀ x ∈ l, x ≤ 0) :
    l.foldl max 0 = 0 := by
  induction l with
  | nil => rfl
  | cons x xs ih =>
    simp only [List.foldl_cons]
    rw [max_eq_left (h x (List.mem_cons_self x xs))]
    exact ih (fun y hy => h y (List.mem_cons_of_mem _ hy))

theorem bestDeltaOver_eq_foldl_max (pred : Pred) (race_laps : List Lap)
    (driver circuit : String) (season : ℤ) (tt : ℚ) (alts : List ℤ) :
    bestDeltaOver pred race_laps driver circuit season tt alts =
      ((alts.map (fun alt =>
        (simulateStrategy pred race_laps driver alt circuit season tt).getDeltaS))).foldl
          max 0 := by
  unfold bestDeltaOver
  have hfun : (fun (best : ℚ) (alt : ℤ) =>
      let d := (simulateStrategy pred race_laps driver alt circuit season tt).getDeltaS
      if best < d then d else best) =
      (fun (best : ℚ) (alt : ℤ) =>
        max best ((simulateStrategy pred race_laps driver alt circuit season tt).getDeltaS)) := by
    funext b y
    simp only
    by_cases hc : b < (simulateStrategy pred race_laps driver y circuit season tt).getDeltaS
    · rw [if_pos hc, max_eq_right (le_of_lt hc)]
    · rw [if_neg hc, max_eq_left (not_lt.mp hc)]
  rw [hfun, List.foldl_map]

/-- Claim C4, amended: the six candidates receive one-sided clamps (the minus
candidates are floored at 3, the plus candidates are capped at
`totalLaps - 5`; no candidate receives both bounds); the estimator returns
the negated rounded maximum of the candidate deltas and 0, hence is never
positive, and is exactly 0 when no candidate delta is positive. -/
theorem claim_C4_amended (pred : Pred) (driver_laps race_laps : List Lap)
    (driver circuit : String) (season : ℤ) (tt : ℚ) (p : ℤ)
    (hfp : firstPitLap driver_laps = some p) :
    alternatives p (maxLapNumber driver_laps) =
      [max 3 (p - 9), max 3 (p - 6), max 3 (p - 3),
       min (maxLapNumber driver_laps - 5) (p + 3),
       min (maxLapNumber driver_laps - 5) (p + 6),
       min (maxLapNumber driver_laps - 5) (p + 9)] ∧
    computeStrategyErrorML pred driver_laps race_laps driver circuit season tt =
      -(round3 (((alternatives p (maxLapNumber driver_laps)).map (fun alt =>
        (simulateStrategy pred race_laps driver alt circuit season tt).getDeltaS)).foldl
          max 0)) ∧
    computeStrategyErrorML pred driver_laps race_laps driver circuit season tt ≤ 0 ∧
    ((∀ d ∈ (alternatives p (maxLapNumber driver_laps)).map (fun alt =>
        (simulateStrategy pred race_laps driver alt circuit season tt).getDeltaS), d ≤ 0) →
      computeStrategyErrorML pred driver_laps race_laps driver circuit season tt = 0) := by
  have hval : computeStrategyErrorML pred driver_laps race_laps driver circuit season tt =
      -(round3 (((alternatives p (maxLapNumber driver_laps)).map (fun alt =>
        (simulateStrategy pred race_laps driver alt circuit season tt).getDeltaS)).foldl
          max 0)) := by
    simp only [computeStrategyErrorML, hfp, bestDeltaOver_eq_foldl_max]
  refine ⟨rfl, hval, ?_, ?_⟩
  · rw [hval]
    have h0 : (0 : ℚ) ≤ ((alternatives p (maxLapNumber driver_laps)).map (fun alt =>
        (simulateStrategy pred race_laps driver alt circuit season tt).getDeltaS)).foldl
          max 0 := foldl_max_init_le _ 0
    have := round3_nonneg _ h0
    linarith
  · intro hall
    rw [hval, foldl_max_of_nonpos _ hall, round3_exact 0 0 (by norm_num)]
    norm_num

/-- Witness for C4's amended theorem, on the `pitLateLaps` fixture. -/
theorem claim_C4_witness :
    computeStrategyErrorML predictLapDelta pitLateLaps pitLateLaps "VER" "X" 2024 35 ≤ 0 :=
  (claim_C4_amended predictLapDelta pitLateLaps pitLateLaps "VER" "X" 2024 35 5
    (by decide)).2.2.1

/-- Counterexample to C4 as stated: with a pit stop on lap 5 of a 6-lap race,
the source enumerates candidate lap 1 (the plus candidates
`min(totalLaps - 5, ·)` are not floored at 3), while the claim's two-sidedly
clamped candidates are all 3; the returned strategy errors differ
(-0.6 against -0.54). -/
theorem claim_C4_counterexample :
    computeStrategyErrorML predictLapDelta pitLateLaps pitLateLaps "VER" "X" 2024 35 =
      -(3/5) ∧
    specStrategyError predictLapDelta pitLateLaps pitLateLaps "VER" "X" 2024 35 =
      -(27/50) ∧
    computeStrategyErrorML predictLapDelta pitLateLaps pitLateLaps "VER" "X" 2024 35 ≠
      specStrategyError predictLapDelta pitLateLaps pitLateLaps "VER" "X" 2024 35 := by
  refine ⟨pitLate_code_value, pitLate_spec_value, ?_⟩
  rw [pitLate_code_value, pitLate_spec_value]
  norm_num

/-! ## Claim C8 -/

theorem degLapCost_eq (pred : Pred) (circuit : String) (season : ℤ) (tt : ℚ)
    (T : ℤ) (compound : String) (lap : Lap) :
    degLapCost pred circuit season tt T compound lap =
      (if (0.3 : ℚ) < degLapExcess pred circuit season tt T compound lap then
        degLapExcess pred circuit season tt T compound lap * 0.6 else 0) := by
  unfold degLapCost degLapExcess
  cases h : lap.lapTime with
  | none => norm_num
  | some t => rfl

theorem sum_if_filter {α : Type} (l : List α) (f : α → ℚ) :
    (((l.map f).filter (fun e => decide ((0.3 : ℚ) < e))).map (fun e => e * 0.6)).sum =
      (l.map (fun x => if (0.3 : ℚ) < f x then f x * 0.6 else 0)).sum := by
  induction l with
  | nil => rfl
  | cons x xs ih =>
    simp only [List.map_cons, List.filter_cons]
    by_cases hc : (0.3 : ℚ) < f x
    · simp [hc, ih]
    · simp [hc, ih]

theorem degCostSum_eq_amended (pred : Pred) (driver_laps : List Lap)
    (circuit : String) (season : ℤ) (tt : ℚ) :
    degCostSum pred driver_laps circuit season tt =
      amendedTyreDegCost pred driver_laps circuit season tt := by
  unfold degCostSum amendedTyreDegCost
  congr 1
  apply List.map_congr_left
  intro sid _
  by_cases hlen : (stintTimedLaps driver_laps sid).length < 3
  · simp only [if_pos hlen]
  · simp only [if_neg hlen]
    rw [sum_if_filter]
    apply congrArg
    apply List.map_congr_left
    intro lap _
    exact degLapCost_eq pred circuit season tt (maxLapNumber driver_laps) _ lap

theorem degLapCost_nonneg (pred : Pred) (circuit : String) (season : ℤ) (tt : ℚ)
    (T : ℤ) (compound : String) (lap : Lap) :
    0 ≤ degLapCost pred circuit season tt T compound lap := by
  rw [degLapCost_eq]
  by_cases hc : (0.3 : ℚ) < degLapExcess pred circuit season tt T compound lap
  · rw [if_pos hc]
    nlinarith
  · rw [if_neg hc]

theorem degCostSum_nonneg (pred : Pred) (driver_laps : List Lap)
    (circuit : String) (season : ℤ) (tt : ℚ) :
    0 ≤ degCostSum pred driver_laps circuit season tt := by
  unfold degCostSum
  apply List.sum_nonneg
  intro x hx
  obtain ⟨sid, _, rfl⟩ := List.mem_map.mp hx
  by_cases hlen : (stintTimedLaps driver_laps sid).length < 3
  · simp only [if_pos hlen]
    exact le_refl 0
  · simp only [if_neg hlen]
    apply List.sum_nonneg
    intro y hy
    obtain ⟨lap, _, rfl⟩ := List.mem_map.mp hy
    exact degLapCost_nonneg pred circuit season tt _ _ lap

/-- Claim C8, amended: the tyre-degradation cost is the negation of the
rounded, 8.0 s-capped sum — over the laps of each stint of at least 3 timed
laps — of `excess * 0.6` restricted to laps whose excess over the prediction
is strictly greater than the 0.3 s noise threshold (not `max(0, excess)`);
the result is never positive and its magnitude never exceeds 8.0 s. -/
theorem claim_C8_amended (pred : Pred) (driver_laps : List Lap) (circuit : String)
    (season : ℤ) (tt : ℚ) :
    computeTyreDegradationCostML pred driver_laps circuit season tt =
      -(round3 (min (amendedTyreDegCost pred driver_laps circuit season tt) 8)) ∧
    -8 ≤ computeTyreDegradationCostML pred driver_laps circuit season tt ∧
    computeTyreDegradationCostML pred driver_laps circuit season tt ≤ 0 := by
  have heq : computeTyreDegradationCostML pred driver_laps circuit season tt =
      -(round3 (min (amendedTyreDegCost pred driver_laps circuit season tt) 8)) := by
    unfold computeTyreDegradationCostML
    rw [degCostSum_eq_amended]
  have hnn : 0 ≤ amendedTyreDegCost pred driver_laps circuit season tt := by
    rw [← degCostSum_eq_amended]
    exact degCostSum_nonneg pred driver_laps circuit season tt
  have hmin0 : 0 ≤ min (amendedTyreDegCost pred driver_laps circuit season tt) 8 :=
    le_min hnn (by norm_num)
  have hmin8 : min (amendedTyreDegCost pred driver_laps circuit season tt) 8 ≤ 8 :=
    min_le_right _ _
  have hr0 : 0 ≤ round3 (min (amendedTyreDegCost pred driver_laps circuit season tt) 8) :=
    round3_nonneg _ hmin0
  have hr8 : round3 (min (amendedTyreDegCost pred driver_laps circuit season tt) 8) ≤ 8 :=
    round3_le_of_le _ 8 8000 (by norm_num) hmin8
  refine ⟨heq, ?_, ?_⟩
  · rw [heq]; linarith
  · rw [heq]; linarith

theorem smallExcess_timed :
    stintTimedLaps smallExcessLaps 1 = smallExcessLaps := by
  norm_num [stintTimedLaps, smallExcessLaps, mkLap, List.filter]

theorem smallExcess_costSum :
    degCostSum predictLapDelta smallExcessLaps "X" 2024 35 = 0 := by
  have h1 : stintIds smallExcessLaps = [1] := by decide
  have h3 : maxLapNumber smallExcessLaps = 3 := by decide
  have hup : pyUpper "SOFT" = "SOFT" := by decide
  unfold degCostSum
  rw [h1, h3]
  simp only [List.map_cons, List.map_nil, List.sum_cons, List.sum_nil]
  rw [smallExcess_timed]
  norm_num [smallExcessLaps, mkLap, degLapCost, predictLapDelta, polynomialLapDelta,
    polyRate_SOFT, getCircuitMedian, hup]

theorem smallExcess_specSum :
    specTyreDegCostSum predictLapDelta smallExcessLaps "X" 2024 35 = 9/25 := by
  have h1 : stintIds smallExcessLaps = [1] := by decide
  have h3 : maxLapNumber smallExcessLaps = 3 := by decide
  have hup : pyUpper "SOFT" = "SOFT" := by decide
  unfold specTyreDegCostSum
  rw [h1, h3]
  simp only [List.map_cons, List.map_nil, List.sum_cons, List.sum_nil]
  rw [smallExcess_timed]
  norm_num [smallExcessLaps, mkLap, degLapExcess, predictLapDelta, polynomialLapDelta,
    polyRate_SOFT, getCircuitMedian, hup]

/-- Counterexample to C8 as stated: a 3-lap stint whose every lap is 0.2 s
slower than predicted costs nothing in the source (the 0.3 s threshold cuts
it off) but -0.36 s under the claim's `max(0, excess) * 0.6` formula. -/
theorem claim_C8_counterexample :
    computeTyreDegradationCostML predictLapDelta smallExcessLaps "X" 2024 35 = 0 ∧
    specTyreDegClaim predictLapDelta smallExcessLaps "X" 2024 35 = -(9/25) ∧
    computeTyreDegradationCostML predictLapDelta smallExcessLaps "X" 2024 35 ≠
      specTyreDegClaim predictLapDelta smallExcessLaps "X" 2024 35 := by
  have hcode : computeTyreDegradationCostML predictLapDelta smallExcessLaps "X" 2024 35
      = 0 := by
    unfold computeTyreDegradationCostML
    rw [smallExcess_costSum]
    rw [min_eq_left (by norm_num : (0 : ℚ) ≤ 8), round3_exact 0 0 (by norm_num)]
    norm_num
  have hspec : specTyreDegClaim predictLapDelta smallExcessLaps "X" 2024 35
      = -(9/25) := by
    unfold specTyreDegClaim
    rw [smallExcess_specSum]
    rw [min_eq_left (by norm_num : (9/25 : ℚ) ≤ 8), round3_exact (9/25) 360 (by norm_num)]
  refine ⟨hcode, hspec, ?_⟩
  rw [hcode, hspec]
  norm_num

/-! ## Claim C10 -/

theorem mask_map {α : Type} (f : Lap → α) (hf : ∀ x, f (scrubPit x) = f x)
    (b : Bool) (l : List Lap) : (maskLaterPits b l).map f = l.map f := by
  induction l generalizing b with
  | nil => rfl
  | cons x xs ih =>
    cases b <;> by_cases hp : x.pitOutTime.isSome = true <;>
      simp [maskLaterPits, hp, hf, ih]

theorem mask_find (P : Lap → Bool) (hP : ∀ x, P (scrubPit x) = P x)
    (b : Bool) (l : List Lap) :
    ((maskLaterPits b l).find? P).map (fun x => pyUpper x.compound) =
      (l.find? P).map (fun x => pyUpper x.compound) := by
  induction l generalizing b with
  | nil => rfl
  | cons x xs ih =>
    by_cases hp : x.pitOutTime.isSome = true
    · cases b with
      | false =>
        have hmask : maskLaterPits false (x :: xs) = x :: maskLaterPits true xs := by
          simp [maskLaterPits, hp]
        rw [hmask]
        by_cases hq : P x = true
        · rw [List.find?_cons_of_pos _ hq, List.find?_cons_of_pos _ hq]
        · rw [List.find?_cons_of_neg _ (by simpa using hq),
            List.find?_cons_of_neg _ (by simpa using hq)]
          exact ih true
      | true =>
        have hmask : maskLaterPits true (x :: xs) =
            scrubPit x :: maskLaterPits true xs := by
          simp [maskLaterPits, hp]
        rw [hmask]
        by_cases hq : P x = true
        · rw [List.find?_cons_of_pos _ ((hP x).trans hq),
            List.find?_cons_of_pos _ hq]
          rfl
        · rw [List.find?_cons_of_neg _ (by simpa using (hP x).trans_ne hq),
            List.find?_cons_of_neg _ (by simpa using hq)]
          exact ih true
    · have hmask : ∀ c : Bool, maskLaterPits c (x :: xs) = x :: maskLaterPits c xs := by
        intro c
        simp [maskLaterPits, hp]
      rw [hmask]
      by_cases hq : P x = true
      · rw [List.find?_cons_of_pos _ hq, List.find?_cons_of_pos _ hq]
      · rw [List.find?_cons_of_neg _ (by simpa using hq),
          List.find?_cons_of_neg _ (by simpa using hq)]
        exact ih b

theorem mask_filter_head (P : Lap → Bool) (hP : ∀ x, P (scrubPit x) = P x)
    (b : Bool) (l : List Lap) :
    (((maskLaterPits b l).filter P).head?).map (fun x => pyUpper x.compound) =
      ((l.filter P).head?).map (fun x => pyUpper x.compound) := by
  rw [List.filter_head?, List.filter_head?]
  exact mask_find P hP b l

theorem mask_true_pit_filter (l : List Lap) :
    (maskLaterPits true l).filter (fun x => x.pitOutTime.isSome) = [] := by
  induction l with
  | nil => rfl
  | cons x xs ih =>
    by_cases hp : x.pitOutTime.isSome = true <;>
      simp [maskLaterPits, scrubPit, hp, ih]

theorem mask_false_firstPit (l : List Lap) :
    firstPitLap (maskLaterPits false l) = firstPitLap l := by
  unfold firstPitLap
  rw [List.head?_map, List.head?_map, List.filter_head?, List.filter_head?]
  induction l with
  | nil => rfl
  | cons x xs ih =>
    by_cases hp : x.pitOutTime.isSome = true
    · have hmask : maskLaterPits false (x :: xs) = x :: maskLaterPits true xs := by
        simp [maskLaterPits, hp]
      rw [hmask,
        @List.find?_cons_of_pos Lap (fun l => l.pitOutTime.isSome) x
          (maskLaterPits true xs) hp,
        @List.find?_cons_of_pos Lap (fun l => l.pitOutTime.isSome) x xs hp]
    · have hmask : maskLaterPits false (x :: xs) = x :: maskLaterPits false xs := by
        simp [maskLaterPits, hp]
      rw [hmask,
        @List.find?_cons_of_neg Lap (fun l => l.pitOutTime.isSome) x
          (maskLaterPits false xs) hp,
        @List.find?_cons_of_neg Lap (fun l => l.pitOutTime.isSome) x xs hp]
      exact ih

theorem mask_false_pit_len (l : List Lap) :
    ((maskLaterPits false l).filter (fun x => x.pitOutTime.isSome)).length ≤ 1 := by
  induction l with
  | nil => norm_num [maskLaterPits]
  | cons x xs ih =>
    by_cases hp : x.pitOutTime.isSome = true
    · simp [maskLaterPits, hp, mask_true_pit_filter]
    · simpa [maskLaterPits, hp] using ih

theorem mask_all_driver (l : List Lap) (d : String) (hall : ∀ x ∈ l, x.driver = d)
    (b : Bool) : ∀ x ∈ maskLaterPits b l, x.driver = d := by
  intro x hx
  have hmap := mask_map (fun y => y.driver) (fun y => rfl) b l
  have hmem : x.driver ∈ (maskLaterPits b l).map (fun y => y.driver) :=
    List.mem_map_of_mem _ hx
  rw [hmap] at hmem
  obtain ⟨y, hy, hyx⟩ := List.mem_map.mp hmem
  rw [← hyx]
  exact hall y hy

/-- The simulator reads its lap log only through the driver filter, the
emptiness test, the first pit lap, the maximum lap number, the starting
compound and the post-pit compound. -/
theorem simulateStrategy_congr (pred : Pred) (l1 l2 : List Lap)
    (driver circuit : String) (alt season : ℤ) (tt : ℚ)
    (hf1 : l1.filter (fun l => l.driver == driver) = l1)
    (hf2 : l2.filter (fun l => l.driver == driver) = l2)
    (hemp : l1.isEmpty = l2.isEmpty)
    (hfp : firstPitLap l1 = firstPitLap l2)
    (hmax : maxLapNumber l1 = maxLapNumber l2)
    (hstart : startingCompound l1 = startingCompound l2)
    (hnext : ∀ p : ℤ, getNextCompound l1 p = getNextCompound l2 p) :
    simulateStrategy pred l1 driver alt circuit season tt =
      simulateStrategy pred l2 driver alt circuit season tt := by
  unfold simulateStrategy
  rw [hf1, hf2]
  simp only [hemp, hfp, hmax, hstart, hnext]

theorem list_isEmpty_eq_length_beq (m : List Lap) : m.isEmpty = (m.length == 0) := by
  cases m <;> rfl

/-- Claim C10: with two or more recorded pit stops, the simulator uses only
the first one — erasing every later pit-out mark changes nothing, the
masked log has at most one pit row — and in each timeline the tyre age and
compound follow the single-changepoint closed form (reset exactly at the
actual pit lap in the actual timeline and at the alternate lap in the
counterfactual one). -/
theorem claim_C10 (pred : Pred) (race_laps : List Lap) (driver circuit : String)
    (alt season : ℤ) (tt : ℚ)
    (hall : ∀ l ∈ race_laps, l.driver = driver)
    (_h2 : 2 ≤ (race_laps.filter (fun l => l.pitOutTime.isSome)).length) :
    simulateStrategy pred (ignoreLaterPits race_laps) driver alt circuit season tt =
      simulateStrategy pred race_laps driver alt circuit season tt ∧
    ((ignoreLaterPits race_laps).filter (fun l => l.pitOutTime.isSome)).length ≤ 1 ∧
    (∀ r : CounterfactualResult,
      simulateStrategy pred race_laps driver alt circuit season tt = .ok r →
      r.actual_total_s = round3 (((List.range (maxLapNumber race_laps).toNat).map
          (lapContrib pred circuit season tt (maxLapNumber race_laps) r.actual_pit_lap
            (startingCompound race_laps)
            (getNextCompound race_laps r.actual_pit_lap))).sum) ∧
      r.counter_total_s = round3 (((List.range (maxLapNumber race_laps).toNat).map
          (lapContrib pred circuit season tt (maxLapNumber race_laps) alt
            (startingCompound race_laps)
            (getNextCompound race_laps r.actual_pit_lap))).sum)) := by
  have hfilter : race_laps.filter (fun l => l.driver == driver) = race_laps := by
    rw [List.filter_eq_self]
    intro x hx
    exact beq_iff_eq.mpr (hall x hx)
  have hfilter2 : (ignoreLaterPits race_laps).filter (fun l => l.driver == driver) =
      ignoreLaterPits race_laps := by
    rw [List.filter_eq_self]
    intro x hx
    exact beq_iff_eq.mpr (mask_all_driver race_laps driver hall false x hx)
  have hlen : (ignoreLaterPits race_laps).length = race_laps.length := by
    have hm := mask_map (fun l => l.lapNumber) (fun y => rfl) false race_laps
    calc (ignoreLaterPits race_laps).length
        = ((maskLaterPits false race_laps).map (fun l => l.lapNumber)).length := by
          rw [List.length_map]; rfl
      _ = (race_laps.map (fun l => l.lapNumber)).length := by rw [hm]
      _ = race_laps.length := List.length_map _ _
  have hemp : (ignoreLaterPits race_laps).isEmpty = race_laps.isEmpty := by
    rw [list_isEmpty_eq_length_beq, list_isEmpty_eq_length_beq, hlen]
  have hmax : maxLapNumber (ignoreLaterPits race_laps) = maxLapNumber race_laps := by
    unfold maxLapNumber ignoreLaterPits
    rw [mask_map (fun l => l.lapNumber) (fun y => rfl) false race_laps]
  have hstart : startingCompound (ignoreLaterPits race_laps) =
      startingCompound race_laps := by
    unfold startingCompound ignoreLaterPits
    rw [mask_filter_head (fun l => l.lapNumber == 1) (fun x => rfl) false race_laps]
  have hnext : ∀ p : ℤ, getNextCompound (ignoreLaterPits race_laps) p =
      getNextCompound race_laps p := by
    intro p
    unfold getNextCompound ignoreLaterPits
    rw [mask_filter_head (fun l => decide (p < l.lapNumber)) (fun x => rfl) false race_laps]
  have hfp : firstPitLap (ignoreLaterPits race_laps) = firstPitLap race_laps :=
    mask_false_firstPit race_laps
  refine ⟨simulateStrategy_congr pred (ignoreLaterPits race_laps) race_laps driver circuit
      alt season tt hfilter2 hfilter hemp hfp hmax hstart hnext,
    mask_false_pit_len race_laps, ?_⟩
  intro r h
  simp only [simulateStrategy] at h
  rw [hfilter] at h
  by_cases hempty : race_laps.isEmpty = true
  · rw [if_pos hempty] at h
    simp at h
  · rw [if_neg hempty] at h
    cases hpit : firstPitLap race_laps with
    | none =>
      rw [hpit] at h
      simp at h
    | some p =>
      rw [hpit] at h
      obtain ⟨rap, ral, ras, rcs, rds, rm⟩ := r
      simp only [SimOutcome.ok.injEq, CounterfactualResult.mk.injEq] at h
      obtain ⟨h1, h2', h3, h4, h5, h6⟩ := h
      subst h1 h3 h4
      simp only
      rw [runTimeline_eq_sum, runTimeline_eq_sum]
      exact ⟨rfl, rfl⟩

/-- Witness for C10, on the two-pit-stop fixture. -/
theorem claim_C10_witness :
    simulateStrategy predictLapDelta (ignoreLaterPits twoPitLaps) "VER" 3 "X" 2024 35 =
      simulateStrategy predictLapDelta twoPitLaps "VER" 3 "X" 2024 35 :=
  (claim_C10 predictLapDelta twoPitLaps "VER" "X" 3 2024 35
    (by decide) (by decide)).1

end BlameEngine
